import Mathlib

/-!
Shallow embedding of the Threadweaver decision engine
(`src/api/engine/scoring.py` and `src/api/engine/simulate.py`).

Numbers are modelled as rationals; Python dict lookup is modelled by
string-keyed lookup functions over fixed-shape records; the optional seed
is `Option Int` and the nondeterministic (unseeded) random source is an
explicit entropy parameter.  Fallible operations return `Except PyError`.
-/

namespace Threadweaver

/-- Python exceptions that the embedded code can raise. -/
inductive PyError where
  | valueError
  | indexError
deriving DecidableEq, Repr

/-- Embeds `clamp(value, 0.0, 100.0)` from simulate.py: `max(min_val, min(max_val, value))`.
All call sites in the source use the default bounds 0 and 100. -/
def clamp (value : ℚ) : ℚ :=
  max 0 (min 100 value)

/-- The MetricsState dict: five base dimensions plus the derived score. -/
structure MetricsState where
  waste : ℚ
  emissions : ℚ
  cost : ℚ
  efficiency : ℚ
  communityTrust : ℚ
  sustainabilityScore : ℚ
deriving DecidableEq, Repr

/-- Embeds Python `metrics.get(key, default)` on a MetricsState dict, whose
keys are exactly the six field names (so e.g. `get "trust"` hits the default). -/
def MetricsState.get (m : MetricsState) (key : String) (default : ℚ) : ℚ :=
  if key = "waste" then m.waste
  else if key = "emissions" then m.emissions
  else if key = "cost" then m.cost
  else if key = "efficiency" then m.efficiency
  else if key = "communityTrust" then m.communityTrust
  else if key = "sustainabilityScore" then m.sustainabilityScore
  else default

/-- Embeds `calculate_sustainability_score` from simulate.py. -/
def calculate_sustainability_score (metrics : MetricsState) : ℚ :=
  clamp ((100 - metrics.waste) * 0.25 +
         (100 - metrics.emissions) * 0.25 +
         (100 - metrics.cost) * 0.15 +
         metrics.efficiency * 0.20 +
         metrics.communityTrust * 0.15)

/-- A deltas dict: a sparse map over the five base dimensions
(absent key = no change). -/
structure Deltas where
  waste : Option ℚ
  emissions : Option ℚ
  cost : Option ℚ
  efficiency : Option ℚ
  communityTrust : Option ℚ
deriving DecidableEq, Repr

/-- The empty deltas dict. -/
def Deltas.empty : Deltas :=
  ⟨none, none, none, none, none⟩

/-- One iteration of the delta loop: `if key in deltas: new[key] = clamp(new[key] + deltas[key])`. -/
def applyKey (old : ℚ) : Option ℚ → ℚ
  | some d => clamp (old + d)
  | none => old

/-- Embeds `apply_deltas` from simulate.py: clamp-add each present delta key,
then recompute `sustainabilityScore` from the updated base fields. -/
def apply_deltas (metrics : MetricsState) (deltas : Deltas) : MetricsState :=
  let m1 : MetricsState :=
    { waste := applyKey metrics.waste deltas.waste
      emissions := applyKey metrics.emissions deltas.emissions
      cost := applyKey metrics.cost deltas.cost
      efficiency := applyKey metrics.efficiency deltas.efficiency
      communityTrust := applyKey metrics.communityTrust deltas.communityTrust
      sustainabilityScore := metrics.sustainabilityScore }
  { m1 with sustainabilityScore := calculate_sustainability_score m1 }

/-- The optional trigger-bounds dict of a card: ten optional numeric fields. -/
structure Triggers where
  waste_min : Option ℚ := none
  waste_max : Option ℚ := none
  emissions_min : Option ℚ := none
  emissions_max : Option ℚ := none
  cost_min : Option ℚ := none
  cost_max : Option ℚ := none
  efficiency_min : Option ℚ := none
  efficiency_max : Option ℚ := none
  trust_min : Option ℚ := none
  trust_max : Option ℚ := none
deriving DecidableEq, Repr

/-- An option of a decision card.  Only the fields read by the engine are kept:
identifier, label and the deltas map (title, description and explanation text
of the option record are not read by scoring.py or the autopilot objective;
the explanation is, so it is kept too for `simulate_step`). -/
structure CardOption where
  id : String
  label : String
  explanation : String
  deltas : Deltas
deriving DecidableEq, Repr

/-- A decision card.  `triggers = none` embeds a card whose dict has no
`triggers` key or a falsy (`None`/empty) value, the `if not triggers` case. -/
structure Card where
  id : String
  severity : String
  tags : List String
  triggers : Option Triggers
  options : List CardOption
deriving DecidableEq, Repr

/-- One `*_min` check of `filter_by_triggers`: the card stays eligible unless
the bound is present and the metric is strictly below it. -/
def checkMin (value : ℚ) : Option ℚ → Bool
  | some bound => !decide (value < bound)
  | none => true

/-- One `*_max` check of `filter_by_triggers`: the card stays eligible unless
the bound is present and the metric is strictly above it. -/
def checkMax (value : ℚ) : Option ℚ → Bool
  | some bound => !decide (value > bound)
  | none => true

/-- The per-card eligibility test of `filter_by_triggers` (scoring.py lines
26-68): no triggers means always eligible, otherwise the conjunction of the
ten bound checks, trust bounds being checked against `communityTrust`. -/
def cardEligible (metrics : MetricsState) (card : Card) : Bool :=
  match card.triggers with
  | none => true
  | some t =>
    checkMin metrics.waste t.waste_min && checkMax metrics.waste t.waste_max &&
    checkMin metrics.emissions t.emissions_min && checkMax metrics.emissions t.emissions_max &&
    checkMin metrics.cost t.cost_min && checkMax metrics.cost t.cost_max &&
    checkMin metrics.efficiency t.efficiency_min && checkMax metrics.efficiency t.efficiency_max &&
    checkMin metrics.communityTrust t.trust_min && checkMax metrics.communityTrust t.trust_max

/-- Embeds `filter_by_triggers` from scoring.py: keep, in order, the cards
whose trigger conditions are satisfied. -/
def filter_by_triggers (metrics : MetricsState) (cards : List Card) : List Card :=
  cards.filter (cardEligible metrics)

/-- The urgency dict produced by `calculate_urgency_score`: one value per
tag-comparable dimension. -/
structure Urgency where
  waste : ℚ
  emissions : ℚ
  cost : ℚ
  efficiency : ℚ
  trust : ℚ
deriving DecidableEq, Repr

/-- Embeds `calculate_urgency_score` from scoring.py. -/
def calculate_urgency_score (metrics : MetricsState) : Urgency :=
  { waste := metrics.waste / 100
    emissions := metrics.emissions / 100
    cost := metrics.cost / 100
    efficiency := (100 - metrics.efficiency) / 100
    trust := (100 - metrics.communityTrust) / 100 }

/-- Embeds Python `tag in urgency` / `urgency[tag]` on the urgency dict,
whose keys are exactly the five names below. -/
def Urgency.get (u : Urgency) (tag : String) : Option ℚ :=
  if tag = "waste" then some u.waste
  else if tag = "emissions" then some u.emissions
  else if tag = "cost" then some u.cost
  else if tag = "efficiency" then some u.efficiency
  else if tag = "trust" then some u.trust
  else none

/-- A scoring-factor record `{factor, score, reason}`. -/
structure ScoringFactor where
  factor : String
  score : ℚ
  reason : String
deriving DecidableEq, Repr

/-- Embeds Python `str.capitalize()` for the ASCII tag names used here:
first character upper-cased, the rest lower-cased. -/
def capFirst (s : String) : String :=
  match s.data with
  | [] => ""
  | c :: cs => String.mk (c.toUpper :: cs.map Char.toLower)

/-- Embeds the format spec `:.0f` applied to the (exactly representable)
numbers that reach it in this development: the nearest integer, rendered in
decimal.  At non-half values this agrees with Python float formatting. -/
def fmt0 (q : ℚ) : String :=
  toString (round q)

/-- Embeds the format spec `:.1f` on exactly representable inputs: one
decimal digit after rounding to tenths. -/
def fmt1 (q : ℚ) : String :=
  let n : ℤ := round (q * 10)
  if n < 0 then
    "-" ++ toString ((-n) / 10) ++ "." ++ toString ((-n) % 10)
  else
    toString (n / 10) ++ "." ++ toString (n % 10)

/-- One iteration of the tag loop of `score_card` (scoring.py lines
126-136): accumulate `tag_urgency * 30` when the tag is found in the urgency
dict and record a factor when that urgency exceeds 0.6.  The recorded reason
cites `metrics.get(tag, 0)`. -/
def tagStep (metrics : MetricsState) (urgency : Urgency)
    (acc : ℚ × List ScoringFactor) (tag : String) : ℚ × List ScoringFactor :=
  match urgency.get tag with
  | none => acc
  | some tagUrgency =>
    (acc.1 + tagUrgency * 30,
     if tagUrgency > 0.6 then
       acc.2 ++ [{ factor := "High " ++ tag ++ " urgency"
                   score := tagUrgency * 30
                   reason := capFirst tag ++ " is at " ++
                     fmt0 (metrics.get tag 0) ++ ", requiring attention" }]
     else acc.2)

/-- The whole tag loop of `score_card`: fold `tagStep` over the card tags. -/
def tagBoostAndFactors (tags : List String) (metrics : MetricsState)
    (urgency : Urgency) : ℚ × List ScoringFactor :=
  tags.foldl (tagStep metrics urgency) (0, [])

/-- The pre-multiplier score of `score_card`: the baseline 10 plus the
accumulated urgency tag boosts. -/
def preMultiplierScore (card : Card) (metrics : MetricsState) (urgency : Urgency) : ℚ :=
  10 + (tagBoostAndFactors card.tags metrics urgency).1

/-- Embeds `severity_weights.get(severity, 1.0)` with
`{"easy": 1.0, "medium": 1.5, "hard": 2.0}`. -/
def severityMultiplier (severity : String) : ℚ :=
  if severity = "easy" then 1
  else if severity = "medium" then 1.5
  else if severity = "hard" then 2
  else 1

/-- Embeds `score_card` from scoring.py: baseline 10, urgency tag boosts,
severity multiplier on the whole running score, hard-severity factor, and a
flat +15 when the sustainability score is below 40. -/
def score_card (card : Card) (metrics : MetricsState) (urgency : Urgency) :
    ℚ × List ScoringFactor :=
  let tb := tagBoostAndFactors card.tags metrics urgency
  let score1 := 10 + tb.1
  let mult := severityMultiplier card.severity
  let score2 := score1 * mult
  let factors2 :=
    if card.severity = "hard" then
      tb.2 ++ [{ factor := "High-impact decision"
                 score := (mult - 1) * score2
                 reason := "This is a " ++ card.severity ++
                   " decision with significant long-term effects" }]
    else tb.2
  if metrics.sustainabilityScore < 40 then
    (score2 + 15,
     factors2 ++ [{ factor := "Low sustainability score"
                    score := 15
                    reason := "Overall sustainability at " ++
                      fmt0 metrics.sustainabilityScore ++ " needs improvement" }])
  else (score2, factors2)

/-- A scored-card record `{card, score, factors}` built by `select_card`. -/
structure ScoredCard where
  card : Card
  score : ℚ
  factors : List ScoringFactor
deriving DecidableEq, Repr

/-- Stable insertion for descending order: an element moves past the elements
strictly above it and sits in front of the first element with an equal or
lower key, so ties keep their original relative order, exactly as
Python `list.sort(key=..., reverse=True)` (a stable sort) does. -/
def insertDescBy {α : Type} (key : α → ℚ) (x : α) : List α → List α
  | [] => [x]
  | y :: ys => if key y > key x then y :: insertDescBy key x ys else x :: y :: ys

/-- Stable descending sort by key, embedding
`list.sort(key=..., reverse=True)`. -/
def sortDescBy {α : Type} (key : α → ℚ) : List α → List α
  | [] => []
  | x :: xs => insertDescBy key x (sortDescBy key xs)

/-- Fuel-driven core of CPython `_bisect.bisect_right(a, x, lo, hi)`.  The
span `hi - lo` shrinks at every iteration, so `hi - lo` fuel suffices. -/
def bisectRightAux (a : List ℚ) (x : ℚ) : Nat → Nat → Nat → Nat
  | 0, lo, _ => lo
  | fuel + 1, lo, hi =>
    if lo < hi then
      let mid := (lo + hi) / 2
      if x < a.getD mid 0 then bisectRightAux a x fuel lo mid
      else bisectRightAux a x fuel (mid + 1) hi
    else lo

/-- CPython `bisect_right(a, x, lo, hi)` as used by `random.choices`. -/
def bisectRight (a : List ℚ) (x : ℚ) (lo hi : Nat) : Nat :=
  bisectRightAux a x (hi - lo) lo hi

/-- Embeds `itertools.accumulate` on the weights list: running cumulative
sums, `cumsumFrom s ws` carrying the running total `s`. -/
def cumsumFrom (s : ℚ) : List ℚ → List ℚ
  | [] => []
  | w :: ws => (s + w) :: cumsumFrom (s + w) ws

/-- Embeds `random.Random.choices(population, weights, k=1)[0]` of
CPython 3.9+ given the single uniform draw `u` of the generator:
cumulative weights, `IndexError` on an empty list (`cum_weights[-1]`),
`ValueError` when the total is not positive, then
`population[bisect_right(cum_weights, u * total, 0, n - 1)]`. -/
def pyChoices1 (population : List ScoredCard) (weights : List ℚ) (u : ℚ) :
    Except PyError ScoredCard :=
  let cum := cumsumFrom 0 weights
  match population, cum.getLast? with
  | _, none => .error .indexError
  | [], some _ => .error .indexError
  | p :: ps, some total =>
    if total ≤ 0 then .error .valueError
    else
      let idx := bisectRight cum (u * total) 0 ((p :: ps).length - 1)
      .ok ((p :: ps).getD idx p)

/-- Models the first output of `random.Random(seed).random()`: a fixed
deterministic function of the seed with values in `[0, 1)`.  The development
relies only on it being deterministic, which is the semantics of a seeded
Mersenne Twister. -/
def seededRandom (s : Int) : ℚ :=
  ((s % 2147483647).natAbs % 1000 : ℚ) / 1000

/-- The uniform draw used by one `select_card` call: the seeded stream when a
seed was supplied (`Random(seed)`), the ambient entropy otherwise
(`Random()`). -/
def drawValue (seed : Option Int) (entropy : ℚ) : ℚ :=
  match seed with
  | some s => seededRandom s
  | none => entropy

/-- Step 2 of `select_card`: drop already-used card identifiers and, if that
leaves nothing, fall back to reusing the full catalog. -/
def availableCards (catalog : List Card) (usedCardIds : List String) : List Card :=
  let av := catalog.filter (fun c => !usedCardIds.contains c.id)
  if av.isEmpty then catalog else av

/-- Step 3 of `select_card`: trigger filtering and, if that leaves nothing,
fall back to all available cards ignoring triggers. -/
def eligibleCards (metrics : MetricsState) (available : List Card) : List Card :=
  let el := filter_by_triggers metrics available
  if el.isEmpty then available else el

/-- Step 4 of `select_card`: score every eligible card with the urgency map
computed once from the metrics. -/
def scoredCards (catalog : List Card) (metrics : MetricsState)
    (usedCardIds : List String) : List ScoredCard :=
  let urgency := calculate_urgency_score metrics
  (eligibleCards metrics (availableCards catalog usedCardIds)).map fun c =>
    let sf := score_card c metrics urgency
    { card := c, score := sf.1, factors := sf.2 }

/-- Steps 5-6 of `select_card`: sort descending by score (stable) and keep
the top `min(3, count)` candidates. -/
def topCandidates (catalog : List Card) (metrics : MetricsState)
    (usedCardIds : List String) : List ScoredCard :=
  (sortDescBy ScoredCard.score (scoredCards catalog metrics usedCardIds)).take 3

/-- The `scoring_details` record returned by `select_card`. -/
structure ScoringDetails where
  finalScore : ℚ
  topFactors : List ScoringFactor
  candidatesConsidered : Nat
  totalEligible : Nat
deriving DecidableEq, Repr

/-- Embeds `select_card` from scoring.py, parameterised by the catalog
(`load_all_cards()`) and by the entropy consumed when no seed is given.
The weighted draw over the top candidates uses each candidate score as its
own weight; the rationale is built from the top 3 factors of the selected
candidate. -/
def select_card (catalog : List Card) (metrics : MetricsState)
    (usedCardIds : List String) (seed : Option Int) (entropy : ℚ) :
    Except PyError (Card × String × ScoringDetails) :=
  let top := topCandidates catalog metrics usedCardIds
  let weights := top.map (·.score)
  match pyChoices1 top weights (drawValue seed entropy) with
  | .error e => .error e
  | .ok selected =>
    let topFactors := selected.factors.take 3
    let rationale :=
      if topFactors.isEmpty then
        "This " ++ selected.card.severity ++
          " decision addresses current sustainability needs."
      else
        "This card was chosen because: " ++
          String.intercalate "; "
            (topFactors.map fun f => f.factor ++ " (" ++ f.reason ++ ")")
    .ok (selected.card, rationale,
         { finalScore := selected.score
           topFactors := topFactors
           candidatesConsidered := top.length
           totalEligible :=
             (eligibleCards metrics (availableCards catalog usedCardIds)).length })

/-- Embeds `evaluate_option` from simulate.py: project the metrics through
`apply_deltas`, compute the four objective components, and build the
explanation text. -/
def evaluate_option (option : CardOption) (metrics : MetricsState) : ℚ × String :=
  let deltas := option.deltas
  let projected := apply_deltas metrics deltas
  let scoreGain := projected.sustainabilityScore - metrics.sustainabilityScore
  let costPenalty : ℚ := if deltas.cost.getD 0 > 10 then deltas.cost.getD 0 * (-2) else 0
  let trustPenalty : ℚ :=
    if deltas.communityTrust.getD 0 < -5 then deltas.communityTrust.getD 0 * 3 else 0
  let efficiencyBonus := deltas.efficiency.getD 0 * 1.5
  let objectiveScore := scoreGain * 5.0 + costPenalty + trustPenalty + efficiencyBonus
  let reasons : List String :=
    (if scoreGain > 0 then ["+" ++ fmt1 scoreGain ++ " sustainability score"] else []) ++
    (if deltas.waste.getD 0 < 0 then [fmt0 (deltas.waste.getD 0) ++ " waste reduction"] else []) ++
    (if deltas.emissions.getD 0 < 0 then [fmt0 (deltas.emissions.getD 0) ++ " emissions reduction"] else []) ++
    (if deltas.efficiency.getD 0 > 0 then ["+" ++ fmt0 (deltas.efficiency.getD 0) ++ " efficiency gain"] else []) ++
    (if deltas.communityTrust.getD 0 > 0 then ["+" ++ fmt0 (deltas.communityTrust.getD 0) ++ " community trust"] else [])
  let explanation :=
    "Selected \x27" ++ option.label ++ "\x27: " ++ String.intercalate ", " reasons
  (objectiveScore, explanation)

/-- An evaluated-option record `{option, score, explanation}` built by
`select_best_option`. -/
structure EvaluatedOption where
  option : CardOption
  score : ℚ
  explanation : String
deriving DecidableEq, Repr

/-- Embeds `select_best_option` from simulate.py: evaluate every option,
sort descending by objective score (stable) and take the first; indexing
`evaluated[0]` raises `IndexError` when the card has no options. -/
def select_best_option (card : Card) (metrics : MetricsState) :
    Except PyError (CardOption × String) :=
  let evaluated := card.options.map fun option =>
    let se := evaluate_option option metrics
    EvaluatedOption.mk option se.1 se.2
  match sortDescBy EvaluatedOption.score evaluated with
  | [] => .error .indexError
  | best :: _ => .ok (best.option, best.explanation)

/-- A timeline node produced by one simulation step. -/
structure TimelineNode where
  step : Int
  cardId : String
  chosenOptionId : String
  metricsAfter : MetricsState
  explanation : String
deriving DecidableEq, Repr

/-- The per-step seed expression of `simulate_full_run`
(simulate.py line 222): `seed + step if seed else None`.  Python truthiness
makes `seed = 0` take the `None` branch. -/
def stepSeed (seed : Option Int) (step : Int) : Option Int :=
  match seed with
  | some s => if s ≠ 0 then some (s + step) else none
  | none => none

/-- The loop body of `simulate_full_run`, recursing on the remaining step
count.  `i` is the loop index, `entropy i` the entropy consumed by an
unseeded draw at iteration `i`.  A Python exception raised inside the loop
propagates out as `.error`.  The source guard `if not card: break` can never
fire, because `select_card` either raises or returns a card dict. -/
def simGo (catalog : List Card) (seed : Option Int) (entropy : Nat → ℚ)
    (startStep : Int) (i : Nat) (metrics : MetricsState)
    (usedCardIds : List String) (acc : List TimelineNode) :
    Nat → Except PyError (List TimelineNode)
  | 0 => .ok acc
  | remaining + 1 =>
    let step := startStep + i
    match select_card catalog metrics usedCardIds (stepSeed seed step) (entropy i) with
    | .error e => .error e
    | .ok (card, _, _) =>
      match select_best_option card metrics with
      | .error e => .error e
      | .ok (bestOption, explanation) =>
        let newMetrics := apply_deltas metrics bestOption.deltas
        let node : TimelineNode :=
          { step := step
            cardId := card.id
            chosenOptionId := bestOption.id
            metricsAfter := newMetrics
            explanation := explanation }
        simGo catalog seed entropy startStep (i + 1) newMetrics
          (usedCardIds ++ [card.id]) (acc ++ [node]) remaining

/-- Embeds `simulate_full_run` from simulate.py, parameterised by the catalog
and by the per-iteration entropy of unseeded draws. -/
def simulate_full_run (catalog : List Card) (initialMetrics : MetricsState)
    (steps : Nat) (startStep : Int) (usedCardIds : List String)
    (seed : Option Int) (entropy : Nat → ℚ) : Except PyError (List TimelineNode) :=
  simGo catalog seed entropy startStep 0 initialMetrics usedCardIds [] steps

/-! ## Concrete fixtures used by counterexamples and witnesses -/

/-- A neutral metrics state: every dimension at 50. -/
def m50 : MetricsState := ⟨50, 50, 50, 50, 50, 50⟩

/-- A no-op option. -/
def optA : CardOption := ⟨"a1", "Option A1", "expl a1", Deltas.empty⟩

/-- A second no-op option. -/
def optB : CardOption := ⟨"b1", "Option B1", "expl b1", Deltas.empty⟩

/-- A trigger-free, tag-free, easy card. -/
def cardA : Card := ⟨"A", "easy", [], none, [optA]⟩

/-- A second trigger-free, tag-free, easy card. -/
def cardB : Card := ⟨"B", "easy", [], none, [optB]⟩

/-- Metrics with an out-of-range efficiency, driving the efficiency urgency
to -20 and hence card scores far below zero. -/
def mBad : MetricsState := ⟨0, 0, 0, 2100, 50, 50⟩

/-- An efficiency-tagged card, scoring 10 + (-20)*30 = -590 on `mBad`. -/
def cardBad : Card := ⟨"X", "easy", ["efficiency"], none, [optA, optB]⟩

/-- Metrics with low community trust (20), making the trust urgency 0.8. -/
def m9 : MetricsState := ⟨50, 50, 50, 50, 20, 50⟩

/-- A trust-tagged card. -/
def c9card : Card := ⟨"c9", "easy", ["trust"], none, [optA, optB]⟩

/-- Metrics whose sustainability score (30) is below the low-score
threshold 40. -/
def mLow : MetricsState := ⟨50, 50, 50, 50, 50, 30⟩

/-- A tag-free hard card. -/
def cHard : Card := ⟨"H", "hard", [], none, [optA, optB]⟩

/-! ## General lemmas -/

/-- The five base dimensions of a metrics state lie in `[0, 100]`, the
structural invariant of MetricsState in the data model (the derived score
field is deliberately unconstrained). -/
def InRange (m : MetricsState) : Prop :=
  0 ≤ m.waste ∧ m.waste ≤ 100 ∧
  0 ≤ m.emissions ∧ m.emissions ≤ 100 ∧
  0 ≤ m.cost ∧ m.cost ≤ 100 ∧
  0 ≤ m.efficiency ∧ m.efficiency ≤ 100 ∧
  0 ≤ m.communityTrust ∧ m.communityTrust ≤ 100

theorem urgencyGet_nonneg {m : MetricsState} (hm : InRange m) (tag : String)
    {q : ℚ} (hq : (calculate_urgency_score m).get tag = some q) : 0 ≤ q := by
  obtain ⟨h1, h2, h3, h4, h5, h6, h7, h8, h9, h10⟩ := hm
  unfold Urgency.get calculate_urgency_score at hq
  split_ifs at hq <;> injection hq with hq <;> subst hq <;>
    first
      | positivity
      | · apply div_nonneg _ (by norm_num)
          linarith

theorem tagStep_fst_mono {m : MetricsState} (hm : InRange m)
    (acc : ℚ × List ScoringFactor) (tag : String) :
    acc.1 ≤ (tagStep m (calculate_urgency_score m) acc tag).1 := by
  unfold tagStep
  cases hq : (calculate_urgency_score m).get tag with
  | none => simp
  | some q =>
    have := urgencyGet_nonneg hm tag hq
    simp only []
    nlinarith

theorem tagFold_fst_ge {m : MetricsState} (hm : InRange m) (tags : List String)
    (acc : ℚ × List ScoringFactor) :
    acc.1 ≤ (tags.foldl (tagStep m (calculate_urgency_score m)) acc).1 := by
  induction tags generalizing acc with
  | nil => simp
  | cons t ts ih =>
    calc acc.1 ≤ (tagStep m (calculate_urgency_score m) acc t).1 :=
          tagStep_fst_mono hm acc t
      _ ≤ _ := ih _

theorem tagBoost_nonneg {m : MetricsState} (hm : InRange m) (tags : List String) :
    0 ≤ (tagBoostAndFactors tags m (calculate_urgency_score m)).1 :=
  tagFold_fst_ge hm tags (0, [])

theorem severityMultiplier_ge_one (s : String) : 1 ≤ severityMultiplier s := by
  unfold severityMultiplier
  split_ifs <;> norm_num

/-- Under in-range metrics, every card scores at least the baseline 10. -/
theorem score_card_ge_ten {m : MetricsState} (hm : InRange m) (card : Card) :
    10 ≤ (score_card card m (calculate_urgency_score m)).1 := by
  unfold score_card
  have hb := tagBoost_nonneg hm card.tags
  have hs := severityMultiplier_ge_one card.severity
  set b := (tagBoostAndFactors card.tags m (calculate_urgency_score m)).1 with hbdef
  set mult := severityMultiplier card.severity with hmdef
  have h10 : (10 : ℚ) ≤ (10 + b) * mult := by nlinarith
  split_ifs <;> simp only [] <;> nlinarith

theorem mem_insertDescBy {α : Type} (key : α → ℚ) (x a : α) (l : List α) :
    a ∈ insertDescBy key x l ↔ a = x ∨ a ∈ l := by
  induction l with
  | nil => simp [insertDescBy]
  | cons y ys ih =>
    unfold insertDescBy
    split_ifs <;> simp [ih] <;> tauto

theorem mem_sortDescBy {α : Type} (key : α → ℚ) (a : α) (l : List α) :
    a ∈ sortDescBy key l ↔ a ∈ l := by
  induction l with
  | nil => simp [sortDescBy]
  | cons x xs ih => simp [sortDescBy, mem_insertDescBy, ih]

theorem length_insertDescBy {α : Type} (key : α → ℚ) (x : α) (l : List α) :
    (insertDescBy key x l).length = l.length + 1 := by
  induction l with
  | nil => simp [insertDescBy]
  | cons y ys ih =>
    unfold insertDescBy
    split_ifs <;> simp [ih]

theorem length_sortDescBy {α : Type} (key : α → ℚ) (l : List α) :
    (sortDescBy key l).length = l.length := by
  induction l with
  | nil => rfl
  | cons x xs ih => simp [sortDescBy, length_insertDescBy, ih]

theorem availableCards_subset (catalog : List Card) (used : List String) :
    availableCards catalog used ⊆ catalog := by
  simp only [availableCards]
  split_ifs with h
  · exact fun c hc => hc
  · exact fun c hc => List.mem_of_mem_filter hc

theorem availableCards_ne_nil {catalog : List Card} (h : catalog ≠ [])
    (used : List String) : availableCards catalog used ≠ [] := by
  simp only [availableCards]
  split_ifs with he
  · exact h
  · intro hf
    rw [hf] at he
    exact he rfl

theorem eligibleCards_subset (metrics : MetricsState) (available : List Card) :
    eligibleCards metrics available ⊆ available := by
  simp only [eligibleCards, filter_by_triggers]
  split_ifs with h
  · exact fun c hc => hc
  · exact fun c hc => List.mem_of_mem_filter hc

theorem eligibleCards_ne_nil (metrics : MetricsState) {available : List Card}
    (h : available ≠ []) : eligibleCards metrics available ≠ [] := by
  simp only [eligibleCards, filter_by_triggers]
  split_ifs with he
  · exact h
  · intro hf
    rw [hf] at he
    exact he rfl

theorem scoredCards_ne_nil {catalog : List Card} (h : catalog ≠ [])
    (metrics : MetricsState) (used : List String) :
    scoredCards catalog metrics used ≠ [] := by
  unfold scoredCards
  have := eligibleCards_ne_nil metrics (availableCards_ne_nil h used)
  simpa using this

theorem mem_scoredCards_card {catalog : List Card} {metrics : MetricsState}
    {used : List String} {x : ScoredCard}
    (hx : x ∈ scoredCards catalog metrics used) :
    x.card ∈ catalog ∧
      x.score = (score_card x.card metrics (calculate_urgency_score metrics)).1 := by
  unfold scoredCards at hx
  simp only [List.mem_map] at hx
  obtain ⟨c, hc, rfl⟩ := hx
  refine ⟨availableCards_subset catalog used (eligibleCards_subset metrics _ hc), rfl⟩

theorem topCandidates_ne_nil {catalog : List Card} (h : catalog ≠ [])
    (metrics : MetricsState) (used : List String) :
    topCandidates catalog metrics used ≠ [] := by
  unfold topCandidates
  intro hf
  apply scoredCards_ne_nil h metrics used
  have hl := congrArg List.length hf
  rw [List.length_take, length_sortDescBy] at hl
  simp only [List.length_nil] at hl
  have hlen : (scoredCards catalog metrics used).length = 0 := by omega
  exact List.length_eq_zero.mp hlen

theorem mem_topCandidates {catalog : List Card} {metrics : MetricsState}
    {used : List String} {x : ScoredCard}
    (hx : x ∈ topCandidates catalog metrics used) :
    x.card ∈ catalog ∧
      x.score = (score_card x.card metrics (calculate_urgency_score metrics)).1 := by
  unfold topCandidates at hx
  have := (mem_sortDescBy ScoredCard.score x _).mp (List.mem_of_mem_take hx)
  exact mem_scoredCards_card this

theorem cumsumFrom_getLast (ws : List ℚ) :
    ∀ s w : ℚ, (cumsumFrom s (w :: ws)).getLast? = some (s + w + ws.sum) := by
  induction ws with
  | nil =>
    intro s w
    simp [cumsumFrom]
  | cons v vs ih =>
    intro s w
    have hne : cumsumFrom (s + w) (v :: vs) = (s + w + v) :: cumsumFrom (s + w + v) vs := rfl
    have hsh : cumsumFrom s (w :: v :: vs) =
        (s + w) :: (s + w + v) :: cumsumFrom (s + w + v) vs := rfl
    rw [hsh, List.getLast?_cons_cons, ← hne, ih]
    congr 1
    simp only [List.sum_cons]
    ring

theorem getD_mem {α : Type} (p : α) (ps : List α) (idx : Nat) :
    (p :: ps).getD idx p ∈ p :: ps := by
  unfold List.getD
  cases h : (p :: ps).get? idx with
  | none => simp
  | some a =>
    have := List.get?_mem h
    simpa using this

/-- When the candidate list is nonempty and the total weight is positive,
the embedded `choices` succeeds and picks a member of the list. -/
theorem pyChoices1_ok {population : List ScoredCard} (hpop : population ≠ [])
    {weights : List ℚ} {total : ℚ}
    (hlast : (cumsumFrom 0 weights).getLast? = some total) (htot : 0 < total)
    (u : ℚ) :
    ∃ sc, pyChoices1 population weights u = .ok sc ∧ sc ∈ population := by
  rcases population with _ | ⟨p, ps⟩
  · exact absurd rfl hpop
  · refine ⟨_, ?_, getD_mem p ps
      (bisectRight (cumsumFrom 0 weights) (u * total) 0 ((p :: ps).length - 1))⟩
    simp only [pyChoices1, hlast]
    rw [if_neg (not_le.mpr htot)]

theorem topCandidates_score_ge_ten {catalog : List Card} {m : MetricsState}
    (hm : InRange m) {used : List String} {x : ScoredCard}
    (hx : x ∈ topCandidates catalog m used) : 10 ≤ x.score := by
  obtain ⟨-, hsc⟩ := mem_topCandidates hx
  rw [hsc]
  exact score_card_ge_ten hm x.card

theorem sum_nonneg_of_ge_ten {l : List ℚ} (h : ∀ x ∈ l, 10 ≤ x) : 0 ≤ l.sum :=
  List.sum_nonneg fun x hx => le_trans (by norm_num) (h x hx)

/-- Under a nonempty catalog and in-range metrics, the total weight of the
top candidates is positive. -/
theorem totalWeight_pos {catalog : List Card} (hcat : catalog ≠ [])
    {m : MetricsState} (hm : InRange m) (used : List String) :
    0 < ((topCandidates catalog m used).map ScoredCard.score).sum := by
  have htopne := topCandidates_ne_nil hcat m used
  have hge : ∀ x ∈ (topCandidates catalog m used).map ScoredCard.score, 10 ≤ x := by
    intro x hx
    simp only [List.mem_map] at hx
    obtain ⟨sc, hsc, rfl⟩ := hx
    exact topCandidates_score_ge_ten hm hsc
  rcases hw : (topCandidates catalog m used).map ScoredCard.score with _ | ⟨w, ws⟩
  · exact absurd (List.map_eq_nil.mp hw) htopne
  · rw [List.sum_cons]
    have hw10 : 10 ≤ w := hge w (by rw [hw]; exact List.mem_cons_self w ws)
    have hws : 0 ≤ ws.sum :=
      sum_nonneg_of_ge_ten fun x hx => hge x (by rw [hw]; exact List.mem_cons_of_mem w hx)
    linarith

/-- Under a nonempty catalog and in-range metrics, `select_card` succeeds and
returns a card of the catalog. -/
theorem select_card_ok {catalog : List Card} (hcat : catalog ≠ [])
    {m : MetricsState} (hm : InRange m) (used : List String)
    (seed : Option Int) (entropy : ℚ) :
    ∃ c r d, select_card catalog m used seed entropy = .ok (c, r, d) ∧ c ∈ catalog := by
  have htopne := topCandidates_ne_nil hcat m used
  have hpos := totalWeight_pos hcat hm used
  rcases hw : (topCandidates catalog m used).map ScoredCard.score with _ | ⟨w, ws⟩
  · exact absurd (List.map_eq_nil.mp hw) htopne
  · have hlast := cumsumFrom_getLast ws 0 w
    rw [hw, List.sum_cons] at hpos
    have htot : 0 < 0 + w + ws.sum := by linarith
    have hlast2 : (cumsumFrom 0 ((topCandidates catalog m used).map ScoredCard.score)).getLast? =
        some (0 + w + ws.sum) := by
      rw [hw]
      exact hlast
    obtain ⟨sc, hok, hmem⟩ := pyChoices1_ok htopne hlast2 htot (drawValue seed entropy)
    refine ⟨sc.card, ?_⟩
    simp only [select_card, hok]
    exact ⟨_, _, rfl, (mem_topCandidates hmem).1⟩

theorem clamp_nonneg (v : ℚ) : 0 ≤ clamp v :=
  le_max_left 0 _

theorem clamp_le_100 (v : ℚ) : clamp v ≤ 100 :=
  max_le (by norm_num) (min_le_left 100 v)

theorem clamp_eq_self {v : ℚ} (h0 : 0 ≤ v) (h100 : v ≤ 100) : clamp v = v := by
  unfold clamp
  rw [min_eq_right h100, max_eq_right h0]

theorem applyKey_bounds {old : ℚ} (h0 : 0 ≤ old) (h100 : old ≤ 100)
    (o : Option ℚ) : 0 ≤ applyKey old o ∧ applyKey old o ≤ 100 := by
  cases o with
  | none => exact ⟨h0, h100⟩
  | some d => exact ⟨clamp_nonneg _, clamp_le_100 _⟩

/-- What claim C5 asserts of one base dimension: a present delta yields the
clamped sum (hence a value in `[0, 100]`), an absent delta copies the old
value unchanged. -/
def deltaFieldSpec (old : ℚ) (dd : Option ℚ) (new : ℚ) : Prop :=
  (∀ x, dd = some x → new = clamp (old + x) ∧ 0 ≤ new ∧ new ≤ 100) ∧
  (dd = none → new = old)

theorem deltaFieldSpec_applyKey (old : ℚ) (dd : Option ℚ) :
    deltaFieldSpec old dd (applyKey old dd) := by
  constructor
  · rintro x rfl
    exact ⟨rfl, clamp_nonneg _, clamp_le_100 _⟩
  · rintro rfl
    rfl

/-- Claim C5: `apply_deltas` returns a new state where each base dimension
present in the deltas equals `clamp(old + delta, 0, 100)` — hence lies in
`[0, 100]` — and each absent dimension is copied unchanged.  (The input is
not mutated: the embedding is functional, matching the deepcopy in the
source.) -/
theorem apply_deltas_clamps_fieldwise (m : MetricsState) (d : Deltas) :
    deltaFieldSpec m.waste d.waste (apply_deltas m d).waste ∧
    deltaFieldSpec m.emissions d.emissions (apply_deltas m d).emissions ∧
    deltaFieldSpec m.cost d.cost (apply_deltas m d).cost ∧
    deltaFieldSpec m.efficiency d.efficiency (apply_deltas m d).efficiency ∧
    deltaFieldSpec m.communityTrust d.communityTrust (apply_deltas m d).communityTrust :=
  ⟨deltaFieldSpec_applyKey m.waste d.waste,
   deltaFieldSpec_applyKey m.emissions d.emissions,
   deltaFieldSpec_applyKey m.cost d.cost,
   deltaFieldSpec_applyKey m.efficiency d.efficiency,
   deltaFieldSpec_applyKey m.communityTrust d.communityTrust⟩

/-- Metrics with waste at 95, the example of the clamping property. -/
def m95 : MetricsState := ⟨95, 50, 50, 50, 50, 50⟩

/-- A deltas map adding 20 to waste only. -/
def d20 : Deltas := ⟨some 20, none, none, none, none⟩

/-- Witness for C5 at the spec example waste=95, delta=+20: the result is
the clamped value 100, and an absent dimension is copied unchanged. -/
theorem apply_deltas_clamps_fieldwise_witness :
    (apply_deltas m95 d20).waste = clamp (95 + 20) ∧
    0 ≤ (apply_deltas m95 d20).waste ∧ (apply_deltas m95 d20).waste ≤ 100 ∧
    (apply_deltas m95 d20).emissions = m95.emissions ∧
    clamp (95 + 20 : ℚ) = 100 := by
  obtain ⟨hw, he, -, -, -⟩ := apply_deltas_clamps_fieldwise m95 d20
  obtain ⟨h1, h2, h3⟩ := hw.1 20 rfl
  exact ⟨h1, h2, h3, he.2 rfl, by norm_num [clamp]⟩

/-- Claim C6: after `apply_deltas` on valid base fields the stored
sustainability score is exactly the aggregate formula evaluated on the
post-delta base fields, whatever the pre-delta score field held; the second
conjunct makes the independence from the supplied pre-delta score explicit. -/
theorem apply_deltas_score_purity (m : MetricsState) (d : Deltas) (hm : InRange m) :
    ((apply_deltas m d).sustainabilityScore =
       (100 - (apply_deltas m d).waste) * 0.25 +
       (100 - (apply_deltas m d).emissions) * 0.25 +
       (100 - (apply_deltas m d).cost) * 0.15 +
       (apply_deltas m d).efficiency * 0.20 +
       (apply_deltas m d).communityTrust * 0.15) ∧
    (∀ s : ℚ,
       (apply_deltas { m with sustainabilityScore := s } d).sustainabilityScore =
         (apply_deltas m d).sustainabilityScore) := by
  obtain ⟨h1, h2, h3, h4, h5, h6, h7, h8, h9, h10⟩ := hm
  constructor
  · obtain ⟨hw0, hw1⟩ := applyKey_bounds h1 h2 d.waste
    obtain ⟨he0, he1⟩ := applyKey_bounds h3 h4 d.emissions
    obtain ⟨hc0, hc1⟩ := applyKey_bounds h5 h6 d.cost
    obtain ⟨hf0, hf1⟩ := applyKey_bounds h7 h8 d.efficiency
    obtain ⟨ht0, ht1⟩ := applyKey_bounds h9 h10 d.communityTrust
    show calculate_sustainability_score _ = _
    unfold calculate_sustainability_score
    simp only [apply_deltas]
    rw [clamp_eq_self (by nlinarith) (by nlinarith)]
  · intro s
    rfl

/-- Metrics with an out-of-range pre-delta score field 999 but valid base
fields. -/
def m6 : MetricsState := ⟨95, 0, 0, 100, 100, 999⟩

/-- Witness for C6 at a state whose supplied score field is 999: after a +20
waste delta (clamped to 100) the stored score equals the formula value. -/
theorem apply_deltas_score_purity_witness :
    InRange m6 ∧
    (apply_deltas m6 d20).sustainabilityScore =
      (100 - (apply_deltas m6 d20).waste) * 0.25 +
      (100 - (apply_deltas m6 d20).emissions) * 0.25 +
      (100 - (apply_deltas m6 d20).cost) * 0.15 +
      (apply_deltas m6 d20).efficiency * 0.20 +
      (apply_deltas m6 d20).communityTrust * 0.15 := by
  have hm : InRange m6 := by norm_num [InRange, m6]
  exact ⟨hm, (apply_deltas_score_purity m6 d20 hm).1⟩

/-- The eligibility predicate exactly as claim C7 words it, for the
refinement comparison with the code-side `cardEligible`: no trigger bounds
means unconditionally eligible, and otherwise all present bounds must hold
conjunctively, a `*_min` bound failing iff the metric is strictly below it,
a `*_max` bound failing iff the metric is strictly above it, absent bounds
imposing no constraint, and the trust bounds reading `communityTrust`. -/
def specTriggerEligible (m : MetricsState) (c : Card) : Prop :=
  match c.triggers with
  | none => True
  | some t =>
    (∀ b, t.waste_min = some b → b ≤ m.waste) ∧
    (∀ b, t.waste_max = some b → m.waste ≤ b) ∧
    (∀ b, t.emissions_min = some b → b ≤ m.emissions) ∧
    (∀ b, t.emissions_max = some b → m.emissions ≤ b) ∧
    (∀ b, t.cost_min = some b → b ≤ m.cost) ∧
    (∀ b, t.cost_max = some b → m.cost ≤ b) ∧
    (∀ b, t.efficiency_min = some b → b ≤ m.efficiency) ∧
    (∀ b, t.efficiency_max = some b → m.efficiency ≤ b) ∧
    (∀ b, t.trust_min = some b → b ≤ m.communityTrust) ∧
    (∀ b, t.trust_max = some b → m.communityTrust ≤ b)

theorem checkMin_iff (v : ℚ) (o : Option ℚ) :
    checkMin v o = true ↔ ∀ b, o = some b → b ≤ v := by
  cases o <;> simp [checkMin, not_lt]

theorem checkMax_iff (v : ℚ) (o : Option ℚ) :
    checkMax v o = true ↔ ∀ b, o = some b → v ≤ b := by
  cases o <;> simp [checkMax, not_lt]

theorem cardEligible_iff (m : MetricsState) (c : Card) :
    cardEligible m c = true ↔ specTriggerEligible m c := by
  unfold cardEligible specTriggerEligible
  cases c.triggers with
  | none => simp
  | some t =>
    simp only [Bool.and_eq_true, checkMin_iff, checkMax_iff]
    tauto

/-- Claim C7: membership in `filter_by_triggers` is exactly membership in
the input list together with the conjunctive bound semantics of the spec. -/
theorem filter_by_triggers_correct (m : MetricsState) (cards : List Card) (c : Card) :
    c ∈ filter_by_triggers m cards ↔ c ∈ cards ∧ specTriggerEligible m c := by
  rw [filter_by_triggers, List.mem_filter, cardEligible_iff]

/-- Metrics matching the spec example `{waste: 70, communityTrust: 30}`. -/
def mT : MetricsState := ⟨70, 50, 50, 50, 30, 50⟩

/-- A card with triggers `{waste_min: 60, trust_max: 40}`, the spec
example of trigger conjunction. -/
def cardT : Card :=
  ⟨"T", "easy", [], some { waste_min := some 60, trust_max := some 40 }, [optA, optB]⟩

/-- Witness for C7 at the spec example: waste 70 ≥ 60 and trust 30 ≤ 40
make the card eligible. -/
theorem filter_by_triggers_correct_witness :
    cardT ∈ filter_by_triggers mT [cardT] := by
  refine (filter_by_triggers_correct mT [cardT] cardT).mpr ⟨List.mem_singleton_self cardT, ?_⟩
  simp only [specTriggerEligible, cardT]
  norm_num [mT]
  refine ⟨?_, ?_, ?_, ?_, ?_, ?_, ?_, ?_⟩ <;> rintro b ⟨⟩

/-- Claim C8 (amended): a hard card's returned score is exactly double the
pre-multiplier score plus the flat low-sustainability bonus of 15 when the
score field is below 40 (the claim as stated forgets that bonus). -/
theorem score_card_hard_double (card : Card) (m : MetricsState) (u : Urgency)
    (h : card.severity = "hard") :
    (score_card card m u).1 =
      2 * preMultiplierScore card m u +
        (if m.sustainabilityScore < 40 then 15 else 0) := by
  have hmult : severityMultiplier "hard" = 2 := by simp [severityMultiplier]
  unfold score_card preMultiplierScore
  rw [h, hmult]
  split_ifs <;> ring

/-- Counterexample to C8 as stated: on metrics whose sustainability score is
30 the hard card `cHard` scores 35, not double its pre-multiplier score 10. -/
theorem score_card_hard_double_counterexample :
    (score_card cHard mLow (calculate_urgency_score mLow)).1 ≠
      2 * preMultiplierScore cHard mLow (calculate_urgency_score mLow) := by
  simp [score_card, preMultiplierScore, tagBoostAndFactors, tagStep,
    severityMultiplier, calculate_urgency_score, Urgency.get, mLow, cHard]
  norm_num

/-- Witness for the amended C8 on a hard card with sustainability score 50:
the returned score is exactly double the pre-multiplier score. -/
theorem score_card_hard_double_witness :
    (score_card cHard m50 (calculate_urgency_score m50)).1 =
      2 * preMultiplierScore cHard m50 (calculate_urgency_score m50) +
        (if m50.sustainabilityScore < 40 then 15 else 0) :=
  score_card_hard_double cHard m50 (calculate_urgency_score m50) rfl

/-- Claim C9 (code bug, evaluated at the failing input): on metrics with
`communityTrust = 20` the trust tag records the factor with contribution
`0.8 * 30 = 24`, but its reason cites `metrics.get("trust", 0) = 0` — the
string says the value is 0 although the communityTrust metric is 20,
because the tag name `trust` is not a key of the metrics dict. -/
theorem score_card_trust_reason_cites_zero :
    score_card c9card m9 (calculate_urgency_score m9) =
      (34, [⟨"High trust urgency", 24, "Trust is at 0, requiring attention"⟩]) ∧
    m9.communityTrust = 20 := by
  constructor
  · simp [score_card, tagBoostAndFactors, tagStep, severityMultiplier,
      calculate_urgency_score, Urgency.get, MetricsState.get, capFirst, fmt0,
      m9, c9card]
    norm_num
    decide
  · rfl

/-- Claim C2 (code bug, evaluated at the failing input): with an empty card
catalog, `select_card` raises IndexError (from `cum_weights[-1]` inside
`random.choices` over the empty candidate list) instead of returning a
no-card outcome, and `simulate_full_run` propagates that exception instead
of returning the nodes produced so far; the `if not card: break` path of the
loop is unreachable. -/
theorem empty_catalog_raises :
    select_card [] m50 [] none 0 = .error .indexError ∧
    select_card [] m50 [] (some 5) 0 = .error .indexError ∧
    simulate_full_run [] m50 3 1 [] (some 7) (fun _ => 0) = .error .indexError :=
  ⟨rfl, rfl, rfl⟩

/-- Helper for C1: with a nonzero base seed every step of the simulation is
seeded, so the entropy source is never consulted. -/
theorem simGo_entropy_irrelevant (catalog : List Card) {s : Int} (hs : s ≠ 0)
    (e1 e2 : Nat → ℚ) (startStep : Int) :
    ∀ (steps i : Nat) (m : MetricsState) (used : List String)
      (acc : List TimelineNode),
      simGo catalog (some s) e1 startStep i m used acc steps =
      simGo catalog (some s) e2 startStep i m used acc steps := by
  intro steps
  induction steps with
  | zero =>
    intro i m used acc
    rfl
  | succ n ih =>
    intro i m used acc
    simp only [simGo]
    have hseed : stepSeed (some s) (startStep + (i : Int)) =
        some (s + (startStep + (i : Int))) := by
      simp [stepSeed, hs]
    rw [hseed]
    have hsel : select_card catalog m used (some (s + (startStep + (i : Int)))) (e1 i) =
        select_card catalog m used (some (s + (startStep + (i : Int)))) (e2 i) := rfl
    rw [hsel]
    cases select_card catalog m used (some (s + (startStep + (i : Int)))) (e2 i) with
    | error e => rfl
    | ok res =>
      obtain ⟨card, r, d⟩ := res
      dsimp only
      cases select_best_option card m with
      | error e => rfl
      | ok ob =>
        obtain ⟨bo, ex⟩ := ob
        dsimp only
        exact ih (i + 1) _ _ _

/-- Claim C1 (amended): with a supplied seed, `select_card` is a function of
`(metrics, usedCardIds, seed)` alone — including seed 0; `simulate_full_run`
is deterministic for every nonzero base seed, deriving each step's seed as
`seed + step_number`; with base seed 0 the steps are unseeded, because
Python truthiness (`if seed`) treats 0 like None. -/
theorem seeded_determinism :
    (∀ (catalog : List Card) (m : MetricsState) (used : List String)
       (s : Int) (e1 e2 : ℚ),
       select_card catalog m used (some s) e1 = select_card catalog m used (some s) e2) ∧
    (∀ (catalog : List Card) (m : MetricsState) (steps : Nat) (startStep : Int)
       (used : List String) (s : Int), s ≠ 0 → ∀ e1 e2 : Nat → ℚ,
       simulate_full_run catalog m steps startStep used (some s) e1 =
         simulate_full_run catalog m steps startStep used (some s) e2) ∧
    (∀ (s step : Int), s ≠ 0 → stepSeed (some s) step = some (s + step)) := by
  refine ⟨?_, ?_, ?_⟩
  · intro catalog m used s e1 e2
    rfl
  · intro catalog m steps startStep used s hs e1 e2
    exact simGo_entropy_irrelevant catalog hs e1 e2 startStep steps 0 m used []
  · intro s step hs
    simp [stepSeed, hs]

/-- Counterexample to C1 as stated: with supplied base seed 0 the per-step
seed is None, the unseeded generator is consulted, and two runs on identical
inputs return different timelines. -/
theorem seeded_determinism_counterexample :
    simulate_full_run [cardA, cardB] m50 1 1 [] (some 0) (fun _ => 0) ≠
      simulate_full_run [cardA, cardB] m50 1 1 [] (some 0) (fun _ => 9/10) := by
  have h1 : simulate_full_run [cardA, cardB] m50 1 1 [] (some 0) (fun _ => 0) =
      .ok [⟨1, "A", "a1", ⟨50, 50, 50, 50, 50, 50⟩, "Selected \x27Option A1\x27: "⟩] := by
    norm_num [simulate_full_run, simGo, select_card, topCandidates, scoredCards,
      eligibleCards, availableCards, filter_by_triggers, cardEligible,
      calculate_urgency_score, score_card, tagBoostAndFactors, tagStep,
      severityMultiplier, sortDescBy, insertDescBy, pyChoices1, cumsumFrom,
      bisectRight, bisectRightAux, drawValue, stepSeed, seededRandom,
      select_best_option, evaluate_option, apply_deltas, applyKey,
      calculate_sustainability_score, clamp, fmt1, fmt0, MetricsState.get,
      Urgency.get, Deltas.empty, m50, optA, optB, cardA, cardB]
    decide
  have h2 : simulate_full_run [cardA, cardB] m50 1 1 [] (some 0) (fun _ => 9/10) =
      .ok [⟨1, "B", "b1", ⟨50, 50, 50, 50, 50, 50⟩, "Selected \x27Option B1\x27: "⟩] := by
    norm_num [simulate_full_run, simGo, select_card, topCandidates, scoredCards,
      eligibleCards, availableCards, filter_by_triggers, cardEligible,
      calculate_urgency_score, score_card, tagBoostAndFactors, tagStep,
      severityMultiplier, sortDescBy, insertDescBy, pyChoices1, cumsumFrom,
      bisectRight, bisectRightAux, drawValue, stepSeed, seededRandom,
      select_best_option, evaluate_option, apply_deltas, applyKey,
      calculate_sustainability_score, clamp, fmt1, fmt0, MetricsState.get,
      Urgency.get, Deltas.empty, m50, optA, optB, cardA, cardB]
    decide
  rw [h1, h2]
  intro hcontra
  simp at hcontra

/-- Witness for the amended C1 at the concrete seed 42: two runs with
different entropy sources coincide, and the step-1 seed is 42 + 1. -/
theorem seeded_determinism_witness :
    (42 : Int) ≠ 0 ∧
    simulate_full_run [cardA, cardB] m50 2 1 [] (some 42) (fun _ => 0) =
      simulate_full_run [cardA, cardB] m50 2 1 [] (some 42) (fun _ => 1/2) ∧
    stepSeed (some 42) 1 = some 43 := by
  refine ⟨by norm_num, seeded_determinism.2.1 [cardA, cardB] m50 2 1 [] 42 (by norm_num) _ _, ?_⟩
  have h := seeded_determinism.2.2 42 1 (by norm_num)
  simpa using h

/-- Claim C3: with a nonempty catalog and in-range metrics `select_card`
always succeeds with a card of the catalog; if every catalog identifier is
used, the available set falls back to the whole catalog; if trigger
filtering of the available set is empty, the eligible set falls back to the
whole available set. -/
theorem select_card_total (catalog : List Card) (hcat : catalog ≠ [])
    (m : MetricsState) (hm : InRange m) (used : List String)
    (seed : Option Int) (entropy : ℚ) :
    (∃ c r d, select_card catalog m used seed entropy = .ok (c, r, d) ∧ c ∈ catalog) ∧
    ((∀ c ∈ catalog, c.id ∈ used) → availableCards catalog used = catalog) ∧
    (filter_by_triggers m (availableCards catalog used) = [] →
      eligibleCards m (availableCards catalog used) = availableCards catalog used) := by
  refine ⟨select_card_ok hcat hm used seed entropy, ?_, ?_⟩
  · intro hall
    have hfil : catalog.filter (fun c => !used.contains c.id) = [] := by
      rw [List.filter_eq_nil]
      intro c hc
      simpa using hall c hc
    simp only [availableCards, hfil]
    rfl
  · intro hfil
    simp [eligibleCards, hfil]

/-- Witness for C3 on a 2-card catalog whose both identifiers are already
used: selection still succeeds with one of the two cards. -/
theorem select_card_total_witness :
    ([cardA, cardB] : List Card) ≠ [] ∧ InRange m50 ∧
    (∃ c r d, select_card [cardA, cardB] m50 ["A", "B"] none 0 = .ok (c, r, d) ∧
       c ∈ [cardA, cardB]) :=
  ⟨List.cons_ne_nil _ _, by norm_num [InRange, m50],
   (select_card_total [cardA, cardB] (List.cons_ne_nil _ _) m50
     (by norm_num [InRange, m50]) ["A", "B"] none 0).1⟩

/-- Claim C4 (amended): each top candidate is weighted by its own
unnormalized score, and when the total of those weights is not positive the
library draw raises ValueError — `select_card` fails instead of falling
back to uniform selection. -/
theorem select_card_nonpos_total_raises (catalog : List Card) (m : MetricsState)
    (used : List String) (seed : Option Int) (entropy : ℚ)
    (hne : topCandidates catalog m used ≠ [])
    (hnp : ((topCandidates catalog m used).map ScoredCard.score).sum ≤ 0) :
    select_card catalog m used seed entropy = .error .valueError := by
  rcases h : topCandidates catalog m used with _ | ⟨p, ps⟩
  · exact absurd h hne
  · have hlast := cumsumFrom_getLast (ps.map ScoredCard.score) 0 p.score
    have hsum : 0 + p.score + (ps.map ScoredCard.score).sum ≤ 0 := by
      rw [h] at hnp
      simp only [List.map_cons, List.sum_cons] at hnp
      linarith
    simp only [select_card, h, List.map_cons, pyChoices1, hlast, if_pos hsum]

/-- Counterexample to C4 as stated: on `mBad` the single candidate `cardBad`
scores −590, so the total weight is negative and `select_card` raises a
ValueError instead of selecting uniformly. -/
theorem select_card_nonpos_total_counterexample :
    select_card [cardBad] mBad [] none 0 = .error .valueError := by
  simp [select_card, topCandidates, scoredCards, eligibleCards, availableCards,
    filter_by_triggers, cardEligible, calculate_urgency_score, score_card,
    tagBoostAndFactors, tagStep, severityMultiplier, sortDescBy, insertDescBy,
    pyChoices1, cumsumFrom, drawValue, Urgency.get, mBad, cardBad]
  norm_num

/-- Witness for the amended C4 at the concrete negative-score input. -/
theorem select_card_nonpos_total_witness :
    topCandidates [cardBad] mBad [] ≠ [] ∧
    ((topCandidates [cardBad] mBad []).map ScoredCard.score).sum ≤ 0 ∧
    select_card [cardBad] mBad [] (some 3) (1/2) = .error .valueError := by
  have htop : topCandidates [cardBad] mBad [] =
      [{ card := cardBad, score := -590, factors := [] }] := by
    simp [topCandidates, scoredCards, eligibleCards, availableCards,
      filter_by_triggers, cardEligible, calculate_urgency_score, score_card,
      tagBoostAndFactors, tagStep, severityMultiplier, sortDescBy, insertDescBy,
      Urgency.get, mBad, cardBad]
    norm_num
  have hne : topCandidates [cardBad] mBad [] ≠ [] := by
    rw [htop]
    exact List.cons_ne_nil _ _
  have hnp : ((topCandidates [cardBad] mBad []).map ScoredCard.score).sum ≤ 0 := by
    rw [htop]
    norm_num
  exact ⟨hne, hnp, select_card_nonpos_total_raises [cardBad] mBad [] (some 3) (1/2) hne hnp⟩

/-- Claim C10: under in-range metrics every card scores at least the
baseline 10, hence the total weight of the top candidates of a nonempty
catalog is strictly positive and the nonpositive-total (ValueError) branch
of the weighted draw cannot fire. -/
theorem score_floor_weight_positive (m : MetricsState) (hm : InRange m) :
    (∀ card : Card, 10 ≤ (score_card card m (calculate_urgency_score m)).1) ∧
    ∀ (catalog : List Card) (used : List String), catalog ≠ [] →
      0 < ((topCandidates catalog m used).map ScoredCard.score).sum ∧
      ∀ (seed : Option Int) (entropy : ℚ),
        select_card catalog m used seed entropy ≠ .error .valueError := by
  refine ⟨fun card => score_card_ge_ten hm card,
    fun catalog used hcat => ⟨totalWeight_pos hcat hm used, ?_⟩⟩
  intro seed entropy hcontra
  obtain ⟨c, r, d, hok, -⟩ := select_card_ok hcat hm used seed entropy
  rw [hok] at hcontra
  exact Except.noConfusion hcontra

/-- Witness for C10 at the neutral metrics and a singleton catalog. -/
theorem score_floor_weight_positive_witness :
    InRange m50 ∧ 10 ≤ (score_card cardA m50 (calculate_urgency_score m50)).1 ∧
    select_card [cardA] m50 [] none 0 ≠ .error .valueError := by
  have hm : InRange m50 := by norm_num [InRange, m50]
  exact ⟨hm, (score_floor_weight_positive m50 hm).1 cardA,
    ((score_floor_weight_positive m50 hm).2 [cardA] [] (List.cons_ne_nil _ _)).2 none 0⟩

end Threadweaver
